import Mathlib

/-!
Verification of the qsv JSON/CSV transcoding core: the tojsonl command
(CSV to newline-delimited JSON, src/cmd/tojsonl.rs) and the json command
(JSON to CSV, src/cmd/json.rs).  Rust strings are embedded as lists of
characters; the fallible run functions are embedded as total functions
into Except over an explicit error type.
-/

namespace Qsv

/-- The double quote character (U+0022). -/
def quoteChar : Char := Char.ofNat 34

/-- The apostrophe character (U+0027). -/
def apos : Char := Char.ofNat 39

/-- The backslash character (U+005C). -/
def bslash : Char := Char.ofNat 92

/-- The left curly brace character (U+007B). -/
def lbrace : Char := Char.ofNat 123

/-- The right curly brace character (U+007D). -/
def rbrace : Char := Char.ofNat 125

/-- Unicode White_Space property, as tested by the Rust char is_whitespace
method that the str trim family uses. -/
def rustIsWhitespace (c : Char) : Bool :=
  decide ((9 ≤ c.toNat ∧ c.toNat ≤ 13) ∨ c.toNat = 32 ∨ c.toNat = 133 ∨ c.toNat = 160 ∨
    c.toNat = 5760 ∨ (8192 ≤ c.toNat ∧ c.toNat ≤ 8202) ∨ c.toNat = 8232 ∨ c.toNat = 8233 ∨
    c.toNat = 8239 ∨ c.toNat = 8287 ∨ c.toNat = 12288)

/-- Rust str trim_start over a list of characters. -/
def trimStart (s : List Char) : List Char := s.dropWhile rustIsWhitespace

/-- Rust str trim (both ends) over a list of characters; the csv crate
StringRecord trim method applies this to every field of a record. -/
def trimField (s : List Char) : List Char :=
  ((trimStart s).reverse.dropWhile rustIsWhitespace).reverse

/-- Rust char to_ascii_lowercase. -/
def toAsciiLowercase (c : Char) : Char :=
  if 65 ≤ c.toNat ∧ c.toNat ≤ 90 then Char.ofNat (c.toNat + 32) else c

/-- Primitive JSON type tags of the tojsonl command (tojsonl.rs, enum JsonlType). -/
inductive JsonlType
  | Boolean
  | String
  | Number
  | Integer
  | Null
deriving DecidableEq

/-- Function first_lower_char of tojsonl.rs (lines 260-268): the first character
of the string after trimming leading whitespace, ASCII lowercased, defaulting
to an underscore when no character remains. -/
def first_lower_char (s : List Char) : Char :=
  toAsciiLowercase ((trimStart s).headD '_')

/-- An enum domain value as tojsonl.rs reads it from the inferred schema via
serde_json: null, a string, a non-negative integer (read with as_u64), or
anything else (which as_str and as_u64 both reject). -/
inductive DomVal
  | null
  | str (s : List Char)
  | int (n : Nat)
  | other
deriving DecidableEq

/-- Indicator character of one enum domain value (tojsonl.rs lines 147-179):
underscore for null, first_lower_char for a string, the digit for the
integers one and zero, and an asterisk for anything else. -/
def indicatorChar : DomVal → Char
  | DomVal.null => '_'
  | DomVal.str s => first_lower_char s
  | DomVal.int n => if n = 1 then '1' else if n = 0 then '0' else '*'
  | DomVal.other => '*'

/-- The truthy and falsy indicator pair match of tojsonl.rs lines 186-191,
written as the same twelve ordered pairs the Rust or-patterns cover. -/
def isBoolPair (a b : Char) : Bool :=
  decide ((a = 't' ∧ (b = 'f' ∨ b = '_')) ∨ ((a = 'f' ∨ a = '_') ∧ b = 't') ∨
    (a = '1' ∧ (b = '0' ∨ b = '_')) ∨ ((a = '0' ∨ a = '_') ∧ b = '1') ∨
    (a = 'y' ∧ (b = 'n' ∨ b = '_')) ∨ ((a = 'n' ∨ a = '_') ∧ b = 'y'))

/-- Boolean-Domain Heuristic (tojsonl.rs lines 143-204): a column whose enum
domain has exactly two values whose indicator characters satisfy isBoolPair is
reclassified Boolean; every other column keeps the preliminary type the
profiler inferred. -/
def inferFieldType (prelim : JsonlType) (domain : Option (List DomVal)) : JsonlType :=
  match domain with
  | some (v1 :: v2 :: []) =>
    if isBoolPair (indicatorChar v1) (indicatorChar v2) then JsonlType.Boolean else prelim
  | _ => prelim

/-- The six unordered indicator pairs that the heuristic actually accepts,
written out in both orders: (t,f), (t,_), (1,0), (1,_), (y,n), (y,_).
This is the spec side of the comparison for the amended claim C1. -/
def amendedBoolDomain (a b : Char) : Bool :=
  decide (((a, b) = ('t', 'f')) ∨ ((a, b) = ('f', 't')) ∨
    ((a, b) = ('t', '_')) ∨ ((a, b) = ('_', 't')) ∨
    ((a, b) = ('1', '0')) ∨ ((a, b) = ('0', '1')) ∨
    ((a, b) = ('1', '_')) ∨ ((a, b) = ('_', '1')) ∨
    ((a, b) = ('y', 'n')) ∨ ((a, b) = ('n', 'y')) ∨
    ((a, b) = ('y', '_')) ∨ ((a, b) = ('_', 'y')))

/-- Rust char escape_default: two-character escapes for tab, carriage return,
line feed, backslash, apostrophe and double quote; printable ASCII verbatim;
every other character as backslash, letter u and the lowercase hexadecimal
code point between curly braces. -/
def escapeDefaultChar (c : Char) : List Char :=
  if c = Char.ofNat 9 then [bslash, 't']
  else if c = Char.ofNat 13 then [bslash, 'r']
  else if c = Char.ofNat 10 then [bslash, 'n']
  else if c = bslash then [bslash, bslash]
  else if c = apos then [bslash, apos]
  else if c = quoteChar then [bslash, quoteChar]
  else if 32 ≤ c.toNat ∧ c.toNat ≤ 126 then [c]
  else bslash :: 'u' :: lbrace :: (Nat.toDigits 16 c.toNat ++ [rbrace])

/-- Rust str escape_default over a whole string, one character at a time. -/
def escape_default (s : List Char) : List Char := (s.map escapeDefaultChar).flatten

/-- Value text of one field (tojsonl.rs lines 220-243): Integer and Number
fields pass through verbatim, Boolean fields become the literal true when
first_lower_char yields t, y or 1 and false otherwise, Null fields become the
literal null, String fields become null when empty and otherwise the
escape_default text in double quotes; a field index beyond the type table
yields the literal null. -/
def emitField (types : List JsonlType) (idx : Nat) (field : List Char) : List Char :=
  match types.get? idx with
  | some JsonlType.Integer => field
  | some JsonlType.Number => field
  | some JsonlType.Boolean =>
    if first_lower_char field = 't' ∨ first_lower_char field = 'y' ∨ first_lower_char field = '1'
    then ['t', 'r', 'u', 'e'] else ['f', 'a', 'l', 's', 'e']
  | some JsonlType.Null => ['n', 'u', 'l', 'l']
  | some JsonlType.String =>
    if field = [] then ['n', 'u', 'l', 'l']
    else quoteChar :: (escape_default field ++ [quoteChar])
  | none => ['n', 'u', 'l', 'l']

/-- One key and value pair as written per field (tojsonl.rs lines 244-248):
the header name in double quotes, a colon, then the value text, falling back
to the literal null when the value text is empty, and a trailing comma. -/
def emitPair (headers : List (List Char)) (types : List JsonlType) (idx : Nat)
    (field : List Char) : List Char :=
  let v := emitField types idx field
  let v2 := if v = [] then ['n', 'u', 'l', 'l'] else v
  quoteChar :: (headers.getD idx [] ++ (quoteChar :: ':' :: (v2 ++ [','])))

/-- One JSONL output line for one CSV record (tojsonl.rs lines 214-254): the
record is trimmed field by field, an opening brace is written, every field
writes its key and value pair ending in a comma, the last character is popped
and a closing brace is appended. -/
def tojsonlLine (headers : List (List Char)) (types : List JsonlType)
    (record : List (List Char)) : List Char :=
  let trimmed := record.map trimField
  let body := lbrace :: (trimmed.enum.map (fun p => emitPair headers types p.1 p.2)).flatten
  body.dropLast ++ [rbrace]

/-- Parser modes of the JSON grammar recognizer below. -/
inductive PMode
  | value
  | strBody
  | arrFirst
  | arrTail
  | objFirst
  | objTail
  | pairKV
deriving DecidableEq

/-- Insignificant whitespace of the JSON grammar (RFC 8259). -/
def jsonWs (c : Char) : Bool :=
  decide (c.toNat = 32 ∨ c.toNat = 9 ∨ c.toNat = 10 ∨ c.toNat = 13)

/-- Drop leading JSON whitespace. -/
def skipWs (s : List Char) : List Char := s.dropWhile jsonWs

/-- Hexadecimal digit test. -/
def isHexDigit (c : Char) : Bool :=
  decide ((48 ≤ c.toNat ∧ c.toNat ≤ 57) ∨ (97 ≤ c.toNat ∧ c.toNat ≤ 102) ∨
    (65 ≤ c.toNat ∧ c.toNat ≤ 70))

/-- Decimal digit test. -/
def isDigitChar (c : Char) : Bool := decide (48 ≤ c.toNat ∧ c.toNat ≤ 57)

/-- Modelled from the spec: the integer part of the JSON number grammar
(RFC 8259), needed because the spec appeals to standard JSON; consumes a zero
or a nonzero digit followed by digits. -/
def jsonIntRest (s : List Char) : Option (List Char) :=
  match s with
  | [] => none
  | c :: r =>
    if c = '0' then some r
    else if 49 ≤ c.toNat ∧ c.toNat ≤ 57 then some (r.dropWhile isDigitChar)
    else none

/-- Modelled from the spec: the optional fraction part of the JSON number
grammar, a dot followed by at least one digit. -/
def jsonFracRest (s : List Char) : Option (List Char) :=
  match s with
  | '.' :: r =>
    match r with
    | c :: _ => if isDigitChar c then some (r.dropWhile isDigitChar) else none
    | [] => none
  | _ => some s

/-- Modelled from the spec: the optional exponent part of the JSON number
grammar, letter e or E, an optional sign, and at least one digit. -/
def jsonExpRest (s : List Char) : Option (List Char) :=
  match s with
  | c :: r =>
    if c = 'e' ∨ c = 'E' then
      let r2 := match r with
        | c2 :: r3 => if c2 = '+' ∨ c2 = '-' then r3 else r
        | [] => r
      match r2 with
      | d :: _ => if isDigitChar d then some (r2.dropWhile isDigitChar) else none
      | [] => none
    else some s
  | [] => some s

/-- Modelled from the spec: the JSON number grammar, an optional minus sign
followed by integer, fraction and exponent parts. -/
def jsonNumberRest (s : List Char) : Option (List Char) :=
  let s1 := match s with
    | c :: r => if c = '-' then r else c :: r
    | [] => []
  (jsonIntRest s1).bind (fun r => (jsonFracRest r).bind jsonExpRest)

/-- Modelled from the spec: a recognizer for the standard JSON value grammar
(RFC 8259), which is not part of src and is what the spec means by
independently parseable JSON.  Each mode consumes one production and returns
the remaining input.  The fuel argument only bounds the recursion depth; every
recursive call either consumes input or follows a consumed bracket, so any
fuel at least twice the input length plus a small constant is enough. -/
def jsonP : Nat → PMode → List Char → Option (List Char)
  | 0, _, _ => none
  | Nat.succ fuel, PMode.value, s =>
    match s with
    | 'n' :: 'u' :: 'l' :: 'l' :: r => some r
    | 't' :: 'r' :: 'u' :: 'e' :: r => some r
    | 'f' :: 'a' :: 'l' :: 's' :: 'e' :: r => some r
    | c :: r =>
      if c = quoteChar then jsonP fuel PMode.strBody r
      else if c = '[' then jsonP fuel PMode.arrFirst (skipWs r)
      else if c = lbrace then jsonP fuel PMode.objFirst (skipWs r)
      else jsonNumberRest (c :: r)
    | [] => none
  | Nat.succ fuel, PMode.strBody, s =>
    match s with
    | [] => none
    | c :: r =>
      if c = quoteChar then some r
      else if c = bslash then
        match r with
        | [] => none
        | e :: r2 =>
          if e = quoteChar ∨ e = bslash ∨ e = '/' ∨ e = 'b' ∨ e = 'f' ∨ e = 'n' ∨
              e = 'r' ∨ e = 't' then
            jsonP fuel PMode.strBody r2
          else if e = 'u' then
            match r2 with
            | h1 :: h2 :: h3 :: h4 :: r3 =>
              if isHexDigit h1 ∧ isHexDigit h2 ∧ isHexDigit h3 ∧ isHexDigit h4 then
                jsonP fuel PMode.strBody r3
              else none
            | _ => none
          else none
      else if 32 ≤ c.toNat then jsonP fuel PMode.strBody r
      else none
  | Nat.succ fuel, PMode.arrFirst, s =>
    match s with
    | [] => none
    | c :: r =>
      if c = ']' then some r
      else (jsonP fuel PMode.value (c :: r)).bind
        (fun rest => jsonP fuel PMode.arrTail (skipWs rest))
  | Nat.succ fuel, PMode.arrTail, s =>
    match s with
    | [] => none
    | c :: r =>
      if c = ']' then some r
      else if c = ',' then
        (jsonP fuel PMode.value (skipWs r)).bind
          (fun rest => jsonP fuel PMode.arrTail (skipWs rest))
      else none
  | Nat.succ fuel, PMode.objFirst, s =>
    match s with
    | [] => none
    | c :: r =>
      if c = rbrace then some r
      else (jsonP fuel PMode.pairKV (c :: r)).bind
        (fun rest => jsonP fuel PMode.objTail (skipWs rest))
  | Nat.succ fuel, PMode.objTail, s =>
    match s with
    | [] => none
    | c :: r =>
      if c = rbrace then some r
      else if c = ',' then
        (jsonP fuel PMode.pairKV (skipWs r)).bind
          (fun rest => jsonP fuel PMode.objTail (skipWs rest))
      else none
  | Nat.succ fuel, PMode.pairKV, s =>
    match s with
    | [] => none
    | c :: r =>
      if c = quoteChar then
        (jsonP fuel PMode.strBody r).bind (fun rest =>
          match skipWs rest with
          | ':' :: r2 => jsonP fuel PMode.value (skipWs r2)
          | _ => none)
      else none

/-- Modelled from the spec: the given text is one complete JSON value with
optional surrounding whitespace, per RFC 8259. -/
def isJsonText (s : List Char) : Bool :=
  match jsonP (2 * s.length + 8) PMode.value (skipWs s) with
  | some rest => decide (skipWs rest = [])
  | none => false

/-- Modelled from the spec: the given text is one complete JSON string
literal, double quote to double quote, per RFC 8259. -/
def isJsonStringLit (s : List Char) : Bool :=
  match s with
  | c :: r =>
    if c = quoteChar then
      match jsonP (s.length + 1) PMode.strBody r with
      | some rest => decide (rest = [])
      | none => false
    else false
  | [] => false

/-- JSON values as serde_json materializes them in json.rs, with object key
order preserved.  The number payload is irrelevant to the claims settled here
and is kept as an integer. -/
inductive Json
  | null
  | bool (b : Bool)
  | num (n : Int)
  | str (s : List Char)
  | arr (elems : List Json)
  | obj (entries : List ((List Char) × Json))

/-- The serde_json is_null test. -/
def Json.isNull : Json → Bool
  | Json.null => true
  | _ => false

/-- The serde_json is_array test. -/
def Json.isArr : Json → Bool
  | Json.arr _ => true
  | _ => false

/-- The serde_json as_object accessor. -/
def Json.asObj : Json → Option (List ((List Char) × Json))
  | Json.obj kvs => some kvs
  | _ => none

/-- Error classes the json command run function raises (json.rs): the no JSON
data found error, the two shape errors naming the expected shape, and the
non-empty object requirement. -/
inductive CliErr
  | noJsonData
  | expectedArrayOfObjects
  | expectedObject
  | emptyObject
deriving DecidableEq

/-- Shape validation and header extraction (json.rs lines 179-198): an array
input must begin with an object, a non-array input must itself be an object,
the first object must be non-empty, and the headers are its keys in insertion
order. -/
def shapeHeaders (value : Json) : Except CliErr (List (List Char)) :=
  match value with
  | Json.arr elems =>
    match elems.head?.bind Json.asObj with
    | some kvs =>
      if kvs.isEmpty then Except.error CliErr.emptyObject
      else Except.ok (kvs.map Prod.fst)
    | none => Except.error CliErr.expectedArrayOfObjects
  | v =>
    match v.asObj with
    | some kvs =>
      if kvs.isEmpty then Except.error CliErr.emptyObject
      else Except.ok (kvs.map Prod.fst)
    | none => Except.error CliErr.expectedObject

/-- The unwrap applied to the collected filter output (json.rs lines 165-172):
when the value is an array whose first element is itself an array, that first
element replaces the value. -/
def unwrapNestedArray (v : Json) : Json :=
  match v with
  | Json.arr (first :: rest) => if first.isArr then first else Json.arr (first :: rest)
  | x => x

/-- Collection of all filter outputs into one array followed by the one level
unwrap (json.rs lines 158-172). -/
def collectFilterOutputs (outs : List Json) : Json := unwrapNestedArray (Json.arr outs)

/-- The json command pipeline from the loaded value to the header key list
(json.rs lines 144-198): fail on null, collect and unwrap the filter outputs
when a filter was supplied, fail on null again, then validate the shape. -/
def jsonRunHeaders (value : Json) (filterOuts : Option (List Json)) :
    Except CliErr (List (List Char)) :=
  if value.isNull then Except.error CliErr.noJsonData
  else
    let v := match filterOuts with
      | some outs => collectFilterOutputs outs
      | none => value
    if v.isNull then Except.error CliErr.noJsonData
    else shapeHeaders v

/-- Modelled from the spec: the select module resolves one header name to the
index of that column in the intermediate CSV header (spec section 4.1 step 6);
the select module itself is not under src. -/
def idxOfName (interHdr : List (List Char)) (n : List Char) : Nat :=
  match interHdr with
  | [] => 0
  | h :: t => if h = n then 0 else idxOfName t n + 1

/-- Modelled from the spec: the selection json.rs lines 225-233 computes from
the first record keys over the intermediate header via the external select
module, one index per key in key order. -/
def selectionOf (names interHdr : List (List Char)) : List Nat :=
  names.map (fun n => idxOfName interHdr n)

/-- The final header row written at json.rs line 236: the intermediate header
columns picked out by the selection, in selection order. -/
def finalHeaderOf (names interHdr : List (List Char)) : List (List Char) :=
  (selectionOf names interHdr).map (fun i => interHdr.getD i [])

/-- Full pipeline to the final CSV header row, parameterized by the column
order the intermediate flatten pass happened to produce. -/
def finalCsvHeader (value : Json) (filterOuts : Option (List Json))
    (interHdr : List (List Char)) : Except CliErr (List (List Char)) :=
  (jsonRunHeaders value filterOuts).map (fun names => finalHeaderOf names interHdr)

/-! Helper lemmas shared by the claim theorems. -/

/-- The truthy and falsy pair match equals membership of the unordered pair in
the six pair list, both orders written out. -/
theorem isBoolPair_eq_amended (a b : Char) : isBoolPair a b = amendedBoolDomain a b := by
  have h : ((a = 't' ∧ (b = 'f' ∨ b = '_')) ∨ ((a = 'f' ∨ a = '_') ∧ b = 't') ∨
      (a = '1' ∧ (b = '0' ∨ b = '_')) ∨ ((a = '0' ∨ a = '_') ∧ b = '1') ∨
      (a = 'y' ∧ (b = 'n' ∨ b = '_')) ∨ ((a = 'n' ∨ a = '_') ∧ b = 'y')) ↔
      (((a, b) = ('t', 'f')) ∨ ((a, b) = ('f', 't')) ∨
      ((a, b) = ('t', '_')) ∨ ((a, b) = ('_', 't')) ∨
      ((a, b) = ('1', '0')) ∨ ((a, b) = ('0', '1')) ∨
      ((a, b) = ('1', '_')) ∨ ((a, b) = ('_', '1')) ∨
      ((a, b) = ('y', 'n')) ∨ ((a, b) = ('n', 'y')) ∨
      ((a, b) = ('y', '_')) ∨ ((a, b) = ('_', 'y'))) := by
    simp only [Prod.mk.injEq]
    constructor
    · rintro (⟨ha, hb | hb⟩ | ⟨ha | ha, hb⟩ | ⟨ha, hb | hb⟩ | ⟨ha | ha, hb⟩ |
        ⟨ha, hb | hb⟩ | ⟨ha | ha, hb⟩) <;> subst ha <;> subst hb <;> decide
    · rintro (⟨ha, hb⟩ | ⟨ha, hb⟩ | ⟨ha, hb⟩ | ⟨ha, hb⟩ | ⟨ha, hb⟩ | ⟨ha, hb⟩ |
        ⟨ha, hb⟩ | ⟨ha, hb⟩ | ⟨ha, hb⟩ | ⟨ha, hb⟩ | ⟨ha, hb⟩ | ⟨ha, hb⟩) <;>
        subst ha <;> subst hb <;> decide
  exact decide_eq_decide.mpr h

/-- Looking up a present name with idxOfName and reading the column back
returns the name. -/
theorem idxOfName_getD (interHdr : List (List Char)) (n : List Char) (h : n ∈ interHdr) :
    interHdr.getD (idxOfName interHdr n) [] = n := by
  induction interHdr with
  | nil => cases h
  | cons x t ih =>
    by_cases hx : x = n
    · simp [idxOfName, hx]
    · have hmem : n ∈ t := by
        cases h with
        | head => exact absurd rfl hx
        | tail _ h2 => exact h2
      rw [idxOfName, if_neg hx, List.getD_cons_succ]
      exact ih hmem

/-- Mapping every present name through idxOfName and the column read is the
identity on the name list. -/
theorem map_getD_idxOfName (interHdr names : List (List Char))
    (h : ∀ n ∈ names, n ∈ interHdr) :
    names.map (fun n => interHdr.getD (idxOfName interHdr n) []) = names := by
  induction names with
  | nil => rfl
  | cons x t ih =>
    simp only [List.map_cons]
    rw [idxOfName_getD interHdr x (h x (by simp))]
    rw [ih (fun n hn => h n (by simp [hn]))]

/-! Claim theorems. -/

/-- C1 counterexample: the two-value domain of the string f and null has the
indicator pair (f,_), one of the pairs the claim lists as Boolean, yet the
heuristic keeps the profiler type String. -/
theorem c1_counterexample :
    indicatorChar (DomVal.str ['f']) = 'f' ∧ indicatorChar DomVal.null = '_' ∧
    inferFieldType JsonlType.String (some [DomVal.str ['f'], DomVal.null]) = JsonlType.String ∧
    JsonlType.String ≠ JsonlType.Boolean := by decide

/-- C1 (amended): for every column with exactly two enum domain values, the
Boolean-Domain Heuristic reclassifies the column as Boolean if and only if the
two indicator characters form one of the unordered pairs (t,f), (t,_), (1,0),
(1,_), (y,n), (y,_); every other pairing, including a falsy indicator paired
with the null placeholder such as (f,_), (0,_) or (n,_), leaves the profiler
type unchanged. -/
theorem c1_boolean_domain_heuristic (prelim : JsonlType) (v1 v2 : DomVal) :
    inferFieldType prelim (some [v1, v2]) =
      (if amendedBoolDomain (indicatorChar v1) (indicatorChar v2) = true then JsonlType.Boolean
       else prelim) := by
  show (if isBoolPair (indicatorChar v1) (indicatorChar v2) then JsonlType.Boolean else prelim) =
    _
  rw [isBoolPair_eq_amended]

/-- C10: a string domain value that is empty or consists only of whitespace
reduces to the null indicator underscore, so such a value classifies exactly
as a null domain value would in either position of the two-value domain. -/
theorem c10_whitespace_indicator (s : List Char) (h : ∀ c ∈ s, rustIsWhitespace c = true)
    (prelim : JsonlType) (v : DomVal) :
    indicatorChar (DomVal.str s) = '_' ∧
    inferFieldType prelim (some [v, DomVal.str s]) =
      inferFieldType prelim (some [v, DomVal.null]) ∧
    inferFieldType prelim (some [DomVal.str s, v]) =
      inferFieldType prelim (some [DomVal.null, v]) := by
  have hdrop : s.dropWhile rustIsWhitespace = [] := List.dropWhile_eq_nil_iff.mpr h
  have h1 : indicatorChar (DomVal.str s) = '_' := by
    show toAsciiLowercase ((s.dropWhile rustIsWhitespace).headD '_') = '_'
    rw [hdrop]
    decide
  have h2 : indicatorChar DomVal.null = '_' := rfl
  refine ⟨h1, ?_, ?_⟩
  · show (if isBoolPair (indicatorChar v) (indicatorChar (DomVal.str s)) then JsonlType.Boolean
      else prelim) = (if isBoolPair (indicatorChar v) (indicatorChar DomVal.null) then
      JsonlType.Boolean else prelim)
    rw [h1, h2]
  · show (if isBoolPair (indicatorChar (DomVal.str s)) (indicatorChar v) then JsonlType.Boolean
      else prelim) = (if isBoolPair (indicatorChar DomVal.null) (indicatorChar v) then
      JsonlType.Boolean else prelim)
    rw [h1, h2]

/-- C10 witness at the concrete domain of the string t and a one-space string. -/
theorem c10_whitespace_indicator_witness :
    indicatorChar (DomVal.str [' ']) = '_' ∧
    inferFieldType JsonlType.String (some [DomVal.str ['t'], DomVal.str [' ']]) =
      inferFieldType JsonlType.String (some [DomVal.str ['t'], DomVal.null]) ∧
    inferFieldType JsonlType.String (some [DomVal.str [' '], DomVal.str ['t']]) =
      inferFieldType JsonlType.String (some [DomVal.null, DomVal.str ['t']]) :=
  c10_whitespace_indicator [' '] (by decide) JsonlType.String (DomVal.str ['t'])

/-- C5: in a Boolean typed column the emitted value is the literal true
exactly when first_lower_char of the field is t, y or 1, the literal false
exactly otherwise, and in particular the empty field emits false. -/
theorem c5_boolean_emission (types : List JsonlType) (idx : Nat) (field : List Char)
    (h : types.get? idx = some JsonlType.Boolean) :
    (emitField types idx field = ['t', 'r', 'u', 'e'] ↔
      (first_lower_char field = 't' ∨ first_lower_char field = 'y' ∨
        first_lower_char field = '1')) ∧
    (emitField types idx field = ['f', 'a', 'l', 's', 'e'] ↔
      ¬(first_lower_char field = 't' ∨ first_lower_char field = 'y' ∨
        first_lower_char field = '1')) ∧
    (field = [] → emitField types idx field = ['f', 'a', 'l', 's', 'e']) := by
  have he : emitField types idx field =
      if first_lower_char field = 't' ∨ first_lower_char field = 'y' ∨
        first_lower_char field = '1'
      then ['t', 'r', 'u', 'e'] else ['f', 'a', 'l', 's', 'e'] := by
    unfold emitField
    rw [h]
  have hne : (['t', 'r', 'u', 'e'] : List Char) ≠ ['f', 'a', 'l', 's', 'e'] := by decide
  by_cases hc : first_lower_char field = 't' ∨ first_lower_char field = 'y' ∨
    first_lower_char field = '1'
  · rw [he, if_pos hc]
    refine ⟨iff_of_true rfl hc, iff_of_false hne (not_not_intro hc), ?_⟩
    intro hf
    subst hf
    exact absurd hc (by decide)
  · rw [he, if_neg hc]
    exact ⟨iff_of_false (fun hh => hne hh.symm) hc, iff_of_true rfl hc, fun _ => rfl⟩

/-- C5 witness at the Boolean column and the field Y. -/
theorem c5_boolean_emission_witness :
    (emitField [JsonlType.Boolean] 0 ['Y'] = ['t', 'r', 'u', 'e'] ↔
      (first_lower_char ['Y'] = 't' ∨ first_lower_char ['Y'] = 'y' ∨
        first_lower_char ['Y'] = '1')) ∧
    (emitField [JsonlType.Boolean] 0 ['Y'] = ['f', 'a', 'l', 's', 'e'] ↔
      ¬(first_lower_char ['Y'] = 't' ∨ first_lower_char ['Y'] = 'y' ∨
        first_lower_char ['Y'] = '1')) ∧
    ((['Y'] : List Char) = [] →
      emitField [JsonlType.Boolean] 0 ['Y'] = ['f', 'a', 'l', 's', 'e']) :=
  c5_boolean_emission [JsonlType.Boolean] 0 ['Y'] rfl

/-- C6 counterexample: a String typed field holding a single apostrophe is
emitted as backslash apostrophe between double quotes; that text is not a
well-formed JSON string literal, hence not the field text JSON-escaped and
double-quoted as the claim states. -/
theorem c6_counterexample :
    emitField [JsonlType.String] 0 [apos] = [quoteChar, bslash, apos, quoteChar] ∧
    isJsonStringLit [quoteChar, bslash, apos, quoteChar] = false := by decide

/-- C6 (amended): in a String typed column an empty field emits the literal
null, never an empty string, and a non-empty field emits the field text
escaped with the Rust escape_default rules and double-quoted; escape_default
agrees with standard JSON string escaping only on text free of apostrophes,
control characters and non-ASCII characters. -/
theorem c6_string_emission (types : List JsonlType) (idx : Nat) (field : List Char)
    (h : types.get? idx = some JsonlType.String) :
    (field = [] → emitField types idx field = ['n', 'u', 'l', 'l']) ∧
    (field ≠ [] →
      emitField types idx field = quoteChar :: (escape_default field ++ [quoteChar])) := by
  have he : emitField types idx field =
      if field = [] then ['n', 'u', 'l', 'l']
      else quoteChar :: (escape_default field ++ [quoteChar]) := by
    unfold emitField
    rw [h]
  constructor
  · intro hf
    rw [he, if_pos hf]
  · intro hf
    rw [he, if_neg hf]

/-- C6 witness at the String column and the field a. -/
theorem c6_string_emission_witness :
    ((['a'] : List Char) = [] → emitField [JsonlType.String] 0 ['a'] = ['n', 'u', 'l', 'l']) ∧
    ((['a'] : List Char) ≠ [] →
      emitField [JsonlType.String] 0 ['a'] =
        quoteChar :: (escape_default ['a'] ++ [quoteChar])) :=
  c6_string_emission [JsonlType.String] 0 ['a'] rfl

/-- C4 code bug evidence: for the single header a, a String typed column and
the field containing an apostrophe, the emitted line uses the Rust
escape_default sequence backslash apostrophe, and that line is not parseable
as standard JSON, contradicting the claim and the commands own JSONL
documentation. -/
theorem c4_escape_default_not_json :
    tojsonlLine [['a']] [JsonlType.String] [['i', 't', apos, 's']] =
      [lbrace, quoteChar, 'a', quoteChar, ':', quoteChar, 'i', 't', bslash, apos, 's',
        quoteChar, rbrace] ∧
    isJsonText [lbrace, quoteChar, 'a', quoteChar, ':', quoteChar, 'i', 't', bslash, apos, 's',
        quoteChar, rbrace] = false := by
  constructor
  · rfl
  · rfl

/-- C7: a field whose index is at or beyond the end of the type table emits
the literal null as its value and writes the header name with a null value;
the emission functions are total, so such a row is written rather than
failing. -/
theorem c7_trailing_null (headers : List (List Char)) (types : List JsonlType) (idx : Nat)
    (field : List Char) (h : types.length ≤ idx) :
    emitField types idx field = ['n', 'u', 'l', 'l'] ∧
    emitPair headers types idx field =
      quoteChar :: (headers.getD idx [] ++
        (quoteChar :: ':' :: (['n', 'u', 'l', 'l'] ++ [',']))) := by
  have hn : types.get? idx = none := List.get?_eq_none.mpr h
  have h1 : emitField types idx field = ['n', 'u', 'l', 'l'] := by
    unfold emitField
    rw [hn]
  refine ⟨h1, ?_⟩
  unfold emitPair
  rw [h1]
  rfl

/-- C7 witness at an empty type table. -/
theorem c7_trailing_null_witness :
    emitField [] 0 ['x'] = ['n', 'u', 'l', 'l'] ∧
    emitPair [['a']] [] 0 ['x'] =
      quoteChar :: (([['a']] : List (List Char)).getD 0 [] ++
        (quoteChar :: ':' :: (['n', 'u', 'l', 'l'] ++ [',']))) :=
  c7_trailing_null [['a']] [] 0 ['x'] (by decide)

/-- C9: in an Integer or Number typed column a field that is empty after
trimming is written as the literal null rather than as empty text, and a
non-empty trimmed field is written verbatim. -/
theorem c9_numeric_empty (headers : List (List Char)) (types : List JsonlType) (idx : Nat)
    (field : List Char) (t : JsonlType) (h : types.get? idx = some t)
    (ht : t = JsonlType.Integer ∨ t = JsonlType.Number) :
    emitField types idx (trimField field) = trimField field ∧
    emitPair headers types idx (trimField field) =
      quoteChar :: (headers.getD idx [] ++ (quoteChar :: ':' ::
        ((if trimField field = [] then ['n', 'u', 'l', 'l'] else trimField field) ++
          [',']))) := by
  have h1 : emitField types idx (trimField field) = trimField field := by
    cases ht with
    | inl h2 =>
      subst h2
      unfold emitField
      rw [h]
    | inr h2 =>
      subst h2
      unfold emitField
      rw [h]
  refine ⟨h1, ?_⟩
  unfold emitPair
  rw [h1]

/-- C9 witness at the Integer column and a one-space field, which is empty
after trimming. -/
theorem c9_numeric_empty_witness :
    emitField [JsonlType.Integer] 0 (trimField [' ']) = trimField [' '] ∧
    emitPair [['n']] [JsonlType.Integer] 0 (trimField [' ']) =
      quoteChar :: (([['n']] : List (List Char)).getD 0 [] ++ (quoteChar :: ':' ::
        ((if trimField [' '] = [] then ['n', 'u', 'l', 'l'] else trimField [' ']) ++
          [',']))) :=
  c9_numeric_empty [['n']] [JsonlType.Integer] 0 [' '] JsonlType.Integer rfl (Or.inl rfl)

/-- C2: whenever the run pipeline accepts the input and yields the first
record key sequence, and the intermediate flatten pass produced a column for
every such key, the final CSV header row is exactly the first record key
sequence, whatever column order the intermediate pass produced. -/
theorem c2_header_order (value : Json) (filterOuts : Option (List Json))
    (interHdr names : List (List Char))
    (h1 : jsonRunHeaders value filterOuts = Except.ok names)
    (h2 : ∀ n ∈ names, n ∈ interHdr) :
    finalCsvHeader value filterOuts interHdr = Except.ok names := by
  have h3 : finalHeaderOf names interHdr = names := by
    unfold finalHeaderOf selectionOf
    rw [List.map_map]
    exact map_getD_idxOfName interHdr names h2
  unfold finalCsvHeader
  rw [h1]
  show Except.ok (finalHeaderOf names interHdr) = Except.ok names
  rw [h3]

/-- C2 witness: a two-key record whose intermediate header order is reversed
still yields the original key order in the final header. -/
theorem c2_header_order_witness :
    finalCsvHeader (Json.arr [Json.obj [(['a'], Json.num 1), (['b'], Json.num 2)]]) none
      [['b'], ['a']] = Except.ok [['a'], ['b']] :=
  c2_header_order (Json.arr [Json.obj [(['a'], Json.num 1), (['b'], Json.num 2)]]) none
    [['b'], ['a']] [['a'], ['b']] rfl (by decide)

/-- C3 counterexample: an empty top-level array fails with the shape error
expecting an array of objects, which is a different error class than the no
JSON data found error the claim names. -/
theorem c3_counterexample :
    jsonRunHeaders (Json.arr []) none = Except.error CliErr.expectedArrayOfObjects ∧
    CliErr.expectedArrayOfObjects ≠ CliErr.noJsonData :=
  ⟨rfl, by decide⟩

/-- C3 (amended): a top-level null fails with the no JSON data found error,
with or without a filter, and an empty top-level array fails with the shape
error expecting an array of objects; in both cases the pipeline returns the
error and produces no header row. -/
theorem c3_null_and_empty (filterOuts : Option (List Json)) (interHdr : List (List Char)) :
    jsonRunHeaders Json.null filterOuts = Except.error CliErr.noJsonData ∧
    jsonRunHeaders (Json.arr []) none = Except.error CliErr.expectedArrayOfObjects ∧
    finalCsvHeader Json.null filterOuts interHdr = Except.error CliErr.noJsonData ∧
    finalCsvHeader (Json.arr []) none interHdr =
      Except.error CliErr.expectedArrayOfObjects :=
  ⟨rfl, rfl, rfl, rfl⟩

/-- C8: the filter outputs are collected into one JSON array; when the first
element of that array is itself an array, the collected value is replaced by
that first element, so a filter that selects a nested array of non-array
elements behaves the same as a filter that yields those elements one by
one. -/
theorem c8_filter_unwrap (x xs l : List Json)
    (h : ∀ j, l.head? = some j → j.isArr = false) :
    collectFilterOutputs (Json.arr x :: xs) = Json.arr x ∧
    collectFilterOutputs [Json.arr l] = Json.arr l ∧
    collectFilterOutputs l = Json.arr l := by
  refine ⟨rfl, rfl, ?_⟩
  cases l with
  | nil => rfl
  | cons j t =>
    have hj : j.isArr = false := h j rfl
    show (if j.isArr = true then j else Json.arr (j :: t)) = Json.arr (j :: t)
    rw [hj]
    simp

/-- C8 witness: a nested array as first output wins over later outputs, and a
filter yielding one null behaves like a filter selecting the array holding
that null. -/
theorem c8_filter_unwrap_witness :
    collectFilterOutputs (Json.arr [Json.num 1] :: [Json.num 2]) = Json.arr [Json.num 1] ∧
    collectFilterOutputs [Json.arr [Json.null]] = Json.arr [Json.null] ∧
    collectFilterOutputs [Json.null] = Json.arr [Json.null] :=
  c8_filter_unwrap [Json.num 1] [Json.num 2] [Json.null] (fun j hj => by
    simp only [List.head?_cons, Option.some.injEq] at hj
    rw [← hj]
    rfl)

end Qsv
